import Mathlib

/-!
Verification of the pod lifecycle observation core of hydrophone.

The definitions below are a shallow embedding of `src/pkg/client/check.go`
(the functions `PrintE2ELogs` and `FetchExitCode`) and of the kubeconfig
resolution part of `Configuration.Complete` from the types package.
External effects (the Kubernetes watch, the informer lister, the log stream
channels, environment variables, the home directory lookup) are passed in as
explicit values; machine state (the mutable `c.ExitCode`, the `terminated`
flag) is threaded as explicit accumulators.
-/

set_option autoImplicit false

namespace Hydrophone

/-- Pod lifecycle phase (`v1.PodPhase`). Phases other than the four named
constants behave like `unknown`: `FetchExitCode` only compares against
`PodSucceeded`, `PodFailed` and `PodRunning`. -/
inductive PodPhase
  | pending
  | running
  | succeeded
  | failed
  | unknown
deriving DecidableEq, Repr

/-- One entry of `pod.Status.ContainerStatuses`: the container name and,
when `State.Terminated` is non-nil, the terminated state's exit code. -/
structure ContainerStatus where
  name : String
  terminated : Option Int
deriving DecidableEq, Repr

/-- The part of a `*v1.Pod` that `check.go` reads: `Status.Phase` and
`Status.ContainerStatuses`. -/
structure Pod where
  phase : PodPhase
  containerStatuses : List ContainerStatus
deriving DecidableEq, Repr

/-- One event received from `watchInterface.ResultChan()`: either its
`Object` is a `*v1.Pod`, or the type assertion `event.Object.(*v1.Pod)`
fails (`ok = false`). -/
inductive WatchEvent
  | pod (p : Pod)
  | notAPod
deriving DecidableEq, Repr

/-- Modelled from the spec: the name of the distinguished conformance
container (`common.ConformanceContainer`; the `pkg/common` file is not among
the provided sources). Every theorem below is parametric in name
comparisons, so only the identity of this string matters, not its value. -/
def conformanceContainer : String := "conformance-container"

/-- The observable state of `client.Client` used by `check.go`: the mutable
`ExitCode` field. The clientset is modelled by passing watch results and
lookup results explicitly. -/
structure Client where
  exitCode : Int
deriving DecidableEq, Repr

/-- Modelled from the spec: a freshly constructed `Client` (the constructor
lives in `pkg/client` outside the provided sources). Spec section 3 fixes
`-1` as the `RunResult` sentinel reported when the exit code could not be
determined, e.g. when the stream closes without a terminal signal, so the
exit code field starts at `-1`. -/
def NewClient : Client := { exitCode := -1 }

/-- The loop body of `FetchExitCode` for a `Succeeded`/`Failed` snapshot
(check.go lines 109-113): for each container status, if its name is the
conformance container and its terminated state is non-nil, assign the exit
code. `writes` counts assignments to `c.ExitCode`. -/
def terminalScan (exitCode : Int) (writes : Nat) : List ContainerStatus → Int × Nat
  | [] => (exitCode, writes)
  | cs :: rest =>
    if cs.name = conformanceContainer then
      match cs.terminated with
      | some code => terminalScan code (writes + 1) rest
      | none => terminalScan exitCode writes rest
    else terminalScan exitCode writes rest

/-- The loop body of `FetchExitCode` for a `Running` snapshot (check.go
lines 116-125): for each container status with a non-nil terminated state,
set the `terminated` flag, and if it is the conformance container also
assign the exit code. -/
def runningScan (flag : Bool) (exitCode : Int) (writes : Nat) :
    List ContainerStatus → Bool × Int × Nat
  | [] => (flag, exitCode, writes)
  | cs :: rest =>
    match cs.terminated with
    | some code =>
      if cs.name = conformanceContainer then runningScan true code (writes + 1) rest
      else runningScan true exitCode writes rest
    | none => runningScan flag exitCode writes rest

/-- The `for event := range watchInterface.ResultChan()` loop of
`FetchExitCode` (check.go lines 99-130), over the list of events the
channel delivers before closing. Returns the final exit code, the number
of events consumed from the channel, and the number of assignments made to
`c.ExitCode`. An event whose object is not a pod sets the exit code to
`-1` and returns; a `Succeeded`/`Failed` snapshot is scanned and the loop
breaks; a `Running` snapshot breaks only if some container terminated;
every other snapshot is skipped. -/
def processEvents (exitCode : Int) : List WatchEvent → Int × Nat × Nat
  | [] => (exitCode, 0, 0)
  | WatchEvent.notAPod :: _ => (-1, 1, 1)
  | WatchEvent.pod p :: rest =>
    if p.phase = PodPhase.succeeded ∨ p.phase = PodPhase.failed then
      ((terminalScan exitCode 0 p.containerStatuses).1, 1,
        (terminalScan exitCode 0 p.containerStatuses).2)
    else if p.phase = PodPhase.running then
      if (runningScan false exitCode 0 p.containerStatuses).1 then
        ((runningScan false exitCode 0 p.containerStatuses).2.1, 1,
          (runningScan false exitCode 0 p.containerStatuses).2.2)
      else
        ((processEvents exitCode rest).1,
          (processEvents exitCode rest).2.1 + 1,
          (processEvents exitCode rest).2.2)
    else
      ((processEvents exitCode rest).1,
        (processEvents exitCode rest).2.1 + 1,
        (processEvents exitCode rest).2.2)

/-- `FetchExitCode` (check.go lines 89-133). The watch setup is modelled by
its outcome: `Except.error e` when `Watch` returns an error (the function
wraps and propagates it), `Except.ok events` for the event sequence the
result channel delivers. On the ok path the loop runs and the function
returns nil with the client's exit code updated. -/
def FetchExitCode (c : Client) (watch : Except String (List WatchEvent)) :
    Except String Client :=
  match watch with
  | Except.error e => Except.error ("failed to watch Pods: " ++ e)
  | Except.ok events => Except.ok { exitCode := (processEvents c.exitCode events).1 }

/-- An event that the `FetchExitCode` loop skips without breaking: a pod
snapshot whose phase is `Pending`/`Unknown`, or `Running` with no container
in a terminated state. -/
def isNonTerminalEvent : WatchEvent → Bool
  | WatchEvent.notAPod => false
  | WatchEvent.pod p =>
    match p.phase with
    | PodPhase.succeeded => false
    | PodPhase.failed => false
    | PodPhase.running => p.containerStatuses.all fun cs => cs.terminated.isNone
    | PodPhase.pending => true
    | PodPhase.unknown => true

/-! ### Helper lemmas about the container scans -/

/-- `terminalScan` leaves the accumulator untouched over a run of statuses
containing no terminated conformance entry. -/
theorem terminalScan_no_write (l : List ContainerStatus) (ec : Int) (w : Nat)
    (h : ∀ cs ∈ l, cs.name = conformanceContainer → cs.terminated = none) :
    terminalScan ec w l = (ec, w) := by
  induction l with
  | nil => rfl
  | cons cs rest ih =>
    have hrest : ∀ c ∈ rest, c.name = conformanceContainer → c.terminated = none :=
      fun c hc => h c (List.mem_cons_of_mem cs hc)
    by_cases hname : cs.name = conformanceContainer
    · have hterm : cs.terminated = none := h cs (List.mem_cons_self cs rest) hname
      simp [terminalScan, hname, hterm, ih hrest]
    · simp [terminalScan, hname, ih hrest]

/-- `terminalScan` over statuses in which the conformance container occurs
exactly once, terminated with exit code `E`, records `E` with exactly one
assignment. -/
theorem terminalScan_unique (l1 l2 : List ContainerStatus) (E : Int) (ec : Int) (w : Nat)
    (h1 : ∀ cs ∈ l1, cs.name ≠ conformanceContainer)
    (h2 : ∀ cs ∈ l2, cs.name ≠ conformanceContainer) :
    terminalScan ec w (l1 ++ ⟨conformanceContainer, some E⟩ :: l2) = (E, w + 1) := by
  induction l1 generalizing ec with
  | nil =>
    have h2n : ∀ cs ∈ l2, cs.name = conformanceContainer → cs.terminated = none :=
      fun cs hcs hn => absurd hn (h2 cs hcs)
    simp [terminalScan, terminalScan_no_write l2 E (w + 1) h2n]
  | cons cs rest ih =>
    have hname : cs.name ≠ conformanceContainer := h1 cs (List.mem_cons_self cs rest)
    have hrest : ∀ c ∈ rest, c.name ≠ conformanceContainer :=
      fun c hc => h1 c (List.mem_cons_of_mem cs hc)
    simp [terminalScan, hname, ih ec hrest]

/-- Over statuses with no terminated conformance entry, `runningScan`
leaves the exit code and write count untouched and ors the flag with
"some container terminated". -/
theorem runningScan_no_conf_write (l : List ContainerStatus) (t : Bool) (ec : Int) (w : Nat)
    (h : ∀ cs ∈ l, cs.name = conformanceContainer → cs.terminated = none) :
    runningScan t ec w l = (t || l.any fun cs => cs.terminated.isSome, ec, w) := by
  induction l generalizing t with
  | nil => simp [runningScan]
  | cons cs rest ih =>
    have hrest : ∀ c ∈ rest, c.name = conformanceContainer → c.terminated = none :=
      fun c hc => h c (List.mem_cons_of_mem cs hc)
    match hterm : cs.terminated with
    | some code =>
      have hname : cs.name ≠ conformanceContainer := by
        intro hn
        exact absurd (h cs (List.mem_cons_self cs rest) hn) (by simp [hterm])
      simp [runningScan, hterm, hname, ih true hrest]
    | none =>
      simp [runningScan, hterm, ih t hrest]

/-- `runningScan` over statuses in which the conformance container occurs
exactly once, terminated with exit code `E`, sets the terminated flag and
records `E` with exactly one assignment. -/
theorem runningScan_unique (l1 l2 : List ContainerStatus) (E ec : Int) (t : Bool) (w : Nat)
    (h1 : ∀ cs ∈ l1, cs.name ≠ conformanceContainer)
    (h2 : ∀ cs ∈ l2, cs.name ≠ conformanceContainer) :
    runningScan t ec w (l1 ++ ⟨conformanceContainer, some E⟩ :: l2) = (true, E, w + 1) := by
  induction l1 generalizing t ec with
  | nil =>
    have h2n : ∀ cs ∈ l2, cs.name = conformanceContainer → cs.terminated = none :=
      fun cs hcs hn => absurd hn (h2 cs hcs)
    simp [runningScan, runningScan_no_conf_write l2 true E (w + 1) h2n]
  | cons cs rest ih =>
    have hname : cs.name ≠ conformanceContainer := h1 cs (List.mem_cons_self cs rest)
    have hrest : ∀ c ∈ rest, c.name ≠ conformanceContainer :=
      fun c hc => h1 c (List.mem_cons_of_mem cs hc)
    match hterm : cs.terminated with
    | some code => simp [runningScan, hterm, hname, ih ec true hrest]
    | none => simp [runningScan, hterm, ih ec t hrest]

/-- Stepping over one non-terminal event leaves the exit code and the write
count unchanged and consumes one more event. -/
theorem processEvents_cons_nonterminal (e : WatchEvent) (rest : List WatchEvent) (ec : Int)
    (h : isNonTerminalEvent e = true) :
    processEvents ec (e :: rest) =
      ((processEvents ec rest).1, (processEvents ec rest).2.1 + 1,
        (processEvents ec rest).2.2) := by
  match e with
  | WatchEvent.notAPod => simp [isNonTerminalEvent] at h
  | WatchEvent.pod p =>
    match hp : p.phase with
    | PodPhase.succeeded => simp [isNonTerminalEvent, hp] at h
    | PodPhase.failed => simp [isNonTerminalEvent, hp] at h
    | PodPhase.pending => simp [processEvents, hp]
    | PodPhase.unknown => simp [processEvents, hp]
    | PodPhase.running =>
      have hall : ∀ cs ∈ p.containerStatuses, cs.name = conformanceContainer →
          cs.terminated = none := by
        intro cs hcs _
        have := h
        simp [isNonTerminalEvent, hp, List.all_eq_true] at this
        simpa [Option.isNone_iff_eq_none] using this cs hcs
      have hany : (p.containerStatuses.any fun cs => cs.terminated.isSome) = false := by
        have := h
        simp [isNonTerminalEvent, hp, List.all_eq_true] at this
        simp [List.any_eq_false]
        intro cs hcs
        simpa [Option.isNone_iff_eq_none] using this cs hcs
      simp [processEvents, hp, runningScan_no_conf_write _ false ec 0 hall, hany]

/-- Consuming a run of non-terminal events shifts the consumed-event count
by its length and changes nothing else. -/
theorem processEvents_nonterminal_run (pre evs : List WatchEvent) (ec : Int)
    (h : ∀ e ∈ pre, isNonTerminalEvent e = true) :
    processEvents ec (pre ++ evs) =
      ((processEvents ec evs).1, (processEvents ec evs).2.1 + pre.length,
        (processEvents ec evs).2.2) := by
  induction pre with
  | nil => simp
  | cons e pre ih =>
    have he : isNonTerminalEvent e = true := h e (List.mem_cons_self e pre)
    have hpre : ∀ x ∈ pre, isNonTerminalEvent x = true :=
      fun x hx => h x (List.mem_cons_of_mem e hx)
    rw [List.cons_append, processEvents_cons_nonterminal e (pre ++ evs) ec he, ih hpre]
    simp [List.length_cons]
    omega

/-! ### Claims about FetchExitCode -/

/-- Claim C1 (amended): for every event sequence made of non-terminal
snapshots followed by a snapshot whose phase is Succeeded, Failed or
Running and whose statuses contain the conformance container exactly once,
terminated with exit code `E`, the `FetchExitCode` loop records `E` with
exactly one assignment and consumes exactly the events up to and including
that snapshot — no further events — whatever exit code it started from. -/
theorem fetchExitCode_first_terminal_records (pre rest : List WatchEvent)
    (phase : PodPhase) (l1 l2 : List ContainerStatus) (E ec : Int)
    (hpre : ∀ e ∈ pre, isNonTerminalEvent e = true)
    (hphase : phase = PodPhase.succeeded ∨ phase = PodPhase.failed ∨
      phase = PodPhase.running)
    (h1 : ∀ cs ∈ l1, cs.name ≠ conformanceContainer)
    (h2 : ∀ cs ∈ l2, cs.name ≠ conformanceContainer) :
    processEvents ec
      (pre ++ WatchEvent.pod ⟨phase, l1 ++ ⟨conformanceContainer, some E⟩ :: l2⟩ :: rest) =
      (E, pre.length + 1, 1) := by
  rw [processEvents_nonterminal_run pre _ ec hpre]
  have hstep : processEvents ec
      (WatchEvent.pod ⟨phase, l1 ++ ⟨conformanceContainer, some E⟩ :: l2⟩ :: rest) =
      (E, 1, 1) := by
    rcases hphase with hp | hp | hp
    · subst hp
      simp [processEvents, terminalScan_unique l1 l2 E ec 0 h1 h2]
    · subst hp
      simp [processEvents, terminalScan_unique l1 l2 E ec 0 h1 h2]
    · subst hp
      simp [processEvents, runningScan_unique l1 l2 E ec false 0 h1 h2]
  rw [hstep]
  simp [Nat.add_comm]

/-- Claim C1 witness: a pending snapshot followed by a succeeded snapshot in
which the conformance container terminated with code 7; the loop records 7
once and consumes both events, then stops. -/
theorem fetchExitCode_first_terminal_records_witness :
    processEvents (-1)
      [WatchEvent.pod ⟨PodPhase.pending, []⟩,
       WatchEvent.pod ⟨PodPhase.succeeded, [⟨conformanceContainer, some 7⟩]⟩,
       WatchEvent.notAPod] = (7, 2, 1) := by
  have h := fetchExitCode_first_terminal_records
    [WatchEvent.pod ⟨PodPhase.pending, []⟩] [WatchEvent.notAPod]
    PodPhase.succeeded [] [] 7 (-1)
    (by decide) (Or.inl rfl) (by simp) (by simp)
  simpa using h

/-- Claim C1 counterexample: in the sequence consisting of one Pending
snapshot whose conformance container already reports terminated with exit
code 5, the conformance container eventually reports terminated with code
5, yet the loop makes zero assignments and finishes with exit code -1, so
code 5 is never recorded. -/
theorem fetchExitCode_pending_terminal_ignored :
    (∃ p, WatchEvent.pod p ∈
        [WatchEvent.pod ⟨PodPhase.pending, [⟨conformanceContainer, some 5⟩]⟩] ∧
      ∃ cs ∈ p.containerStatuses,
        cs.name = conformanceContainer ∧ cs.terminated = some 5) ∧
    processEvents (-1)
      [WatchEvent.pod ⟨PodPhase.pending, [⟨conformanceContainer, some 5⟩]⟩] =
      (-1, 1, 0) ∧ (-1 : Int) ≠ 5 := by
  refine ⟨⟨⟨PodPhase.pending, [⟨conformanceContainer, some 5⟩]⟩, ?_, ?_⟩, ?_, ?_⟩
  · simp
  · exact ⟨⟨conformanceContainer, some 5⟩, by simp, rfl, rfl⟩
  · decide
  · decide

/-- Claim C2 counterexample: when establishing the watch fails,
`FetchExitCode` does not return a decision value; it propagates the wrapped
error to the caller. -/
theorem fetchExitCode_watch_error_propagates :
    FetchExitCode ⟨-1⟩ (Except.error "connection refused") =
      Except.error "failed to watch Pods: connection refused" := rfl

/-- Claim C2 (amended): `FetchExitCode` returns without error exactly when
the watch was established: for every delivered event sequence, including
any inconsistency in the events, it returns nil with a decision value,
while a watch-setup failure is propagated as a wrapped error. -/
theorem fetchExitCode_never_fails_after_watch :
    ∀ (c : Client) (watch : Except String (List WatchEvent)),
      (∃ events, watch = Except.ok events) ↔
        ∃ r, FetchExitCode c watch = Except.ok r := by
  intro c watch
  match watch with
  | Except.ok events =>
    exact ⟨fun _ => ⟨_, rfl⟩, fun _ => ⟨events, rfl⟩⟩
  | Except.error e =>
    constructor
    · rintro ⟨events, hev⟩
      exact absurd hev (by simp)
    · rintro ⟨r, hr⟩
      exact absurd hr (by simp [FetchExitCode])

/-- Claim C2 witness: with an established watch delivering no events,
`FetchExitCode` returns a value. -/
theorem fetchExitCode_never_fails_after_watch_witness :
    ∃ r, FetchExitCode ⟨-1⟩ (Except.ok []) = Except.ok r :=
  (fetchExitCode_never_fails_after_watch ⟨-1⟩ (Except.ok [])).mp ⟨[], rfl⟩

/-- Claim C3: if the result channel closes after delivering only
non-terminal snapshots, a freshly constructed client ends with the sentinel
exit code -1: the loop consumed every event, assigned nothing, and the
initial sentinel is what remains externally visible. -/
theorem fetchExitCode_stream_closed_sentinel (events : List WatchEvent)
    (h : ∀ e ∈ events, isNonTerminalEvent e = true) :
    FetchExitCode NewClient (Except.ok events) = Except.ok ⟨-1⟩ ∧
    processEvents NewClient.exitCode events = (-1, events.length, 0) := by
  have hrun := processEvents_nonterminal_run events [] NewClient.exitCode h
  simp [processEvents, NewClient] at hrun
  refine ⟨?_, by simpa [NewClient] using hrun⟩
  simp [FetchExitCode, NewClient, hrun]

/-- Claim C3 witness: a stream of two non-terminal snapshots that then
closes leaves the sentinel -1. -/
theorem fetchExitCode_stream_closed_sentinel_witness :
    FetchExitCode NewClient
      (Except.ok [WatchEvent.pod ⟨PodPhase.pending, []⟩,
        WatchEvent.pod ⟨PodPhase.unknown, []⟩]) = Except.ok ⟨-1⟩ :=
  (fetchExitCode_stream_closed_sentinel
    [WatchEvent.pod ⟨PodPhase.pending, []⟩, WatchEvent.pod ⟨PodPhase.unknown, []⟩]
    (by decide)).1

/-- Claim C4: a Running snapshot whose statuses contain the conformance
container exactly once, already terminated with exit code `E`, makes the
loop record `E` and consume only that one event: it does not wait for a
pod-level terminal phase. -/
theorem fetchExitCode_running_conformance_terminated (rest : List WatchEvent)
    (l1 l2 : List ContainerStatus) (E ec : Int)
    (h1 : ∀ cs ∈ l1, cs.name ≠ conformanceContainer)
    (h2 : ∀ cs ∈ l2, cs.name ≠ conformanceContainer) :
    processEvents ec
      (WatchEvent.pod ⟨PodPhase.running, l1 ++ ⟨conformanceContainer, some E⟩ :: l2⟩ :: rest) =
      (E, 1, 1) := by
  simp [processEvents, runningScan_unique l1 l2 E ec false 0 h1 h2]

/-- Claim C4 witness: a Running snapshot with a sidecar entry and the
conformance container terminated with code 3 resolves to 3 at once, even
though a Succeeded snapshot with a different code follows. -/
theorem fetchExitCode_running_conformance_terminated_witness :
    processEvents (-1)
      [WatchEvent.pod ⟨PodPhase.running,
        [⟨"sidecar", none⟩, ⟨conformanceContainer, some 3⟩]⟩,
       WatchEvent.pod ⟨PodPhase.succeeded, [⟨conformanceContainer, some 9⟩]⟩] =
      (3, 1, 1) := by
  have h := fetchExitCode_running_conformance_terminated
    [WatchEvent.pod ⟨PodPhase.succeeded, [⟨conformanceContainer, some 9⟩]⟩]
    [⟨"sidecar", none⟩] [] 3 (-1) (by decide) (by simp)
  simpa using h

/-- Claim C5: if the first delivered event's object is not decodable as a
pod, `FetchExitCode` sets the exit code to -1 with a single assignment,
returns nil, and consumes exactly one event, whatever follows. -/
theorem fetchExitCode_undecodable_first (c : Client) (rest : List WatchEvent) :
    FetchExitCode c (Except.ok (WatchEvent.notAPod :: rest)) = Except.ok ⟨-1⟩ ∧
    processEvents c.exitCode (WatchEvent.notAPod :: rest) = (-1, 1, 1) :=
  ⟨rfl, rfl⟩

/-- Claim C10: on a Running snapshot in which some container terminated but
no conformance-named container did, the loop breaks after that single
event, makes no assignment, and `FetchExitCode` returns nil with the
client's stored exit code unchanged. -/
theorem fetchExitCode_other_container_terminates (c : Client) (rest : List WatchEvent)
    (p : Pod)
    (hphase : p.phase = PodPhase.running)
    (hconf : ∀ cs ∈ p.containerStatuses,
      cs.name = conformanceContainer → cs.terminated = none)
    (hterm : (p.containerStatuses.any fun cs => cs.terminated.isSome) = true) :
    processEvents c.exitCode (WatchEvent.pod p :: rest) = (c.exitCode, 1, 0) ∧
    FetchExitCode c (Except.ok (WatchEvent.pod p :: rest)) = Except.ok c := by
  have hrun : processEvents c.exitCode (WatchEvent.pod p :: rest) =
      (c.exitCode, 1, 0) := by
    simp [processEvents, hphase,
      runningScan_no_conf_write p.containerStatuses false c.exitCode 0 hconf, hterm]
  exact ⟨hrun, by simp [FetchExitCode, hrun]⟩

/-- Claim C10 witness: a Running snapshot in which only a sidecar
terminated makes the loop stop at once; the exit code stays at -1 even
though the next event would report the conformance container's exit 9. -/
theorem fetchExitCode_other_container_terminates_witness :
    processEvents (-1)
      [WatchEvent.pod ⟨PodPhase.running, [⟨"sidecar", some 3⟩]⟩,
       WatchEvent.pod ⟨PodPhase.succeeded, [⟨conformanceContainer, some 9⟩]⟩] =
      (-1, 1, 0) := by
  have h := fetchExitCode_other_container_terminates ⟨-1⟩
    [WatchEvent.pod ⟨PodPhase.succeeded, [⟨conformanceContainer, some 9⟩]⟩]
    ⟨PodPhase.running, [⟨"sidecar", some 3⟩]⟩ rfl (by decide) (by decide)
  exact h.1

/-! ### PrintE2ELogs: readiness polling loop and log stream consumer -/

/-- Outcome of the readiness polling loop of `PrintE2ELogs` (check.go
lines 55-83): `exitAt k` means iteration `k` observed phase Running and the
loop broke; `fault k` means the lister returned no pod at iteration `k` and
`pod.Status.Phase` dereferenced a nil `*v1.Pod` (a runtime panic). -/
inductive ReadinessOutcome
  | exitAt (k : Nat)
  | fault (k : Nat)
deriving DecidableEq, Repr

/-- The `for` readiness loop of `PrintE2ELogs`: iteration `i` performs
`pod, _ := podInformer.Lister().Pods(ns).Get(common.PodName)` — modelled by
`f i`, `none` when the lookup fails — and breaks only when the looked-up
pod's phase is Running. `fuel` bounds how many iterations we unfold; the
loop itself has no bound, `none` means it was still spinning after `fuel`
iterations. -/
def readinessLoop (f : Nat → Option Pod) (i : Nat) : Nat → Option ReadinessOutcome
  | 0 => none
  | fuel + 1 =>
    match f i with
    | none => some (ReadinessOutcome.fault i)
    | some p =>
      if p.phase = PodPhase.running then some (ReadinessOutcome.exitAt i)
      else readinessLoop f (i + 1) fuel

/-- One signal received by the `select` consumer loop of `PrintE2ELogs`
(check.go lines 67-80) from the three channels fed by `getPodLogs`. -/
inductive StreamEvent
  | line (s : String)
  | failure (e : String)
  | done
deriving DecidableEq, Repr

/-- How the consumer loop of `PrintE2ELogs` ends: `fatal e` models
`log.Fatal(err)` (the process aborts, nothing is returned), `finished`
models `break loop` on the done channel after which `PrintE2ELogs` returns
nil, and `blocked` means the signal list was exhausted with the select
still waiting. -/
inductive ConsumeOutcome
  | fatal (e : String)
  | finished
  | blocked
deriving DecidableEq, Repr

/-- The `select` consumer loop of `PrintE2ELogs` over the signals delivered
by the stream channels, in delivery order. A value on the error channel is
passed to `log.Fatal`; a line is printed via `fmt.Print`, whose own error
(modelled by `printer`) is also passed to `log.Fatal`; the done channel
breaks the loop. -/
def consumeStream (printer : String → Option String) :
    List StreamEvent → ConsumeOutcome
  | [] => ConsumeOutcome.blocked
  | StreamEvent.failure e :: _ => ConsumeOutcome.fatal e
  | StreamEvent.line s :: rest =>
    match printer s with
    | some e => ConsumeOutcome.fatal e
    | none => consumeStream printer rest
  | StreamEvent.done :: _ => ConsumeOutcome.finished

/-- The value `PrintE2ELogs` returns to its caller, as a function of how
the consumer loop ended: it returns (nil) only on `finished`; on `fatal`
the process aborted inside the loop and on `blocked` it never returns. -/
def printE2ELogsReturn : ConsumeOutcome → Option (Except String Unit)
  | ConsumeOutcome.fatal _ => none
  | ConsumeOutcome.finished => some (Except.ok ())
  | ConsumeOutcome.blocked => none

/-- Claim C6: a value on the error channel, reached after successfully
printed lines, makes the consumer loop invoke the fatal-abort path with
that error; and whenever `PrintE2ELogs` returns at all, the returned value
is nil and a done signal was received — a stream error is never returned
to the caller. -/
theorem printE2ELogs_stream_error_fatal :
    (∀ (printer : String → Option String) (pre : List StreamEvent) (e : String)
        (rest : List StreamEvent),
        (∀ x ∈ pre, ∃ s, x = StreamEvent.line s ∧ printer s = none) →
        consumeStream printer (pre ++ StreamEvent.failure e :: rest) =
          ConsumeOutcome.fatal e) ∧
    (∀ (printer : String → Option String) (events : List StreamEvent)
        (r : Except String Unit),
        printE2ELogsReturn (consumeStream printer events) = some r →
        r = Except.ok () ∧ StreamEvent.done ∈ events) := by
  constructor
  · intro printer pre e rest hpre
    induction pre with
    | nil => rfl
    | cons x pre ih =>
      obtain ⟨s, hx, hs⟩ := hpre x (List.mem_cons_self x pre)
      subst hx
      have := ih fun y hy => hpre y (List.mem_cons_of_mem _ hy)
      simpa [consumeStream, hs] using this
  · intro printer events r hret
    induction events with
    | nil => simp [consumeStream, printE2ELogsReturn] at hret
    | cons x rest ih =>
      match x with
      | StreamEvent.failure e =>
        simp [consumeStream, printE2ELogsReturn] at hret
      | StreamEvent.done =>
        simp [consumeStream, printE2ELogsReturn] at hret
        exact ⟨hret.symm, by simp⟩
      | StreamEvent.line s =>
        match hp : printer s with
        | some e => simp [consumeStream, hp, printE2ELogsReturn] at hret
        | none =>
          have hrest : printE2ELogsReturn (consumeStream printer rest) = some r := by
            simpa [consumeStream, hp] using hret
          obtain ⟨hr, hmem⟩ := ih hrest
          exact ⟨hr, List.mem_cons_of_mem _ hmem⟩

/-- Claim C6 witness: with an always-succeeding printer, a line followed by
a stream error turns into the fatal-abort path, and a lone done signal is
the case in which the loop finishes with nil. -/
theorem printE2ELogs_stream_error_fatal_witness :
    consumeStream (fun _ => none)
      [StreamEvent.line "a", StreamEvent.failure "boom", StreamEvent.done] =
      ConsumeOutcome.fatal "boom" ∧
    StreamEvent.done ∈ [StreamEvent.done] := by
  constructor
  · have h := printE2ELogs_stream_error_fatal.1 (fun _ => none)
      [StreamEvent.line "a"] "boom" [StreamEvent.done]
      (by intro x hx; simp at hx; exact ⟨"a", hx, rfl⟩)
    simpa using h
  · exact (printE2ELogs_stream_error_fatal.2 (fun _ => none)
      [StreamEvent.done] (Except.ok ()) rfl).2

/-- If the readiness loop over total lookups breaks within `fuel`
iterations, some lookup observed phase Running. -/
theorem readinessLoop_some_running (f : Nat → Pod) :
    ∀ (fuel i : Nat) (o : ReadinessOutcome),
      readinessLoop (fun k => some (f k)) i fuel = some o →
      ∃ k, (f k).phase = PodPhase.running := by
  intro fuel
  induction fuel with
  | zero =>
    intro i o h
    simp [readinessLoop] at h
  | succ fuel ih =>
    intro i o h
    by_cases hrun : (f i).phase = PodPhase.running
    · exact ⟨i, hrun⟩
    · have h2 : readinessLoop (fun k => some (f k)) (i + 1) fuel = some o := by
        simpa [readinessLoop, hrun] using h
      exact ih (i + 1) o h2

/-- Claim C7: the readiness polling loop of `PrintE2ELogs`, over lookups
that always return a pod, terminates — for some finite unfolding — exactly
when some poll iteration observes phase Running; when no iteration ever
does, the loop is still spinning at every depth, having no built-in
timeout, attempt cap or backoff. -/
theorem readinessLoop_terminates_iff_running (f : Nat → Pod) :
    (∃ fuel o, readinessLoop (fun k => some (f k)) 0 fuel = some o) ↔
      ∃ k, (f k).phase = PodPhase.running := by
  constructor
  · rintro ⟨fuel, o, ho⟩
    exact readinessLoop_some_running f fuel 0 o ho
  · rintro ⟨k, hk⟩
    refine ⟨k + 1, ?_⟩
    have general : ∀ (j i : Nat), (f (i + j)).phase = PodPhase.running →
        ∃ o, readinessLoop (fun n => some (f n)) i (j + 1) = some o := by
      intro j
      induction j with
      | zero =>
        intro i hi
        simp at hi
        exact ⟨ReadinessOutcome.exitAt i, by simp [readinessLoop, hi]⟩
      | succ j ih =>
        intro i hi
        by_cases hrun : (f i).phase = PodPhase.running
        · exact ⟨ReadinessOutcome.exitAt i, by simp [readinessLoop, hrun]⟩
        · have : (f ((i + 1) + j)).phase = PodPhase.running := by
            have : i + 1 + j = i + (j + 1) := by omega
            rw [this]
            exact hi
          obtain ⟨o, ho⟩ := ih (i + 1) this
          exact ⟨o, by simpa [readinessLoop, hrun] using ho⟩
    simpa using general k 0 (by simpa using hk)

/-- Claim C7 witness: under lookups that always report phase Running, the
loop terminates at some depth. -/
theorem readinessLoop_terminates_iff_running_witness :
    ∃ fuel o, readinessLoop (fun _ => some ⟨PodPhase.running, []⟩) 0 fuel = some o :=
  (readinessLoop_terminates_iff_running fun _ => ⟨PodPhase.running, []⟩).mpr ⟨0, rfl⟩

/-- Claim C8: the readiness poll of `PrintE2ELogs` discards the lookup
error (`pod, _ := ...Get(...)`), so at the first iteration whose lookup
returns no pod the loop faults — `pod.Status.Phase` dereferences a nil
pod — instead of surfacing the lookup failure. -/
theorem readinessLoop_absent_pod_fault :
    readinessLoop (fun _ => none) 0 1 = some (ReadinessOutcome.fault 0) := rfl

/-! ### Configuration.Complete: kubeconfig resolution (types package) -/

/-- Go `filepath.Join` on two elements: empty elements are dropped and the
remaining ones joined with a separator. Go additionally runs
`filepath.Clean` on the non-empty result; `Clean` never maps a non-empty
path to the empty string, and no claim depends on its normalisation, so it
is omitted. -/
def filepathJoin (a b : String) : String :=
  if a = "" then b else if b = "" then a else a ++ "/" ++ b

/-- Go `strings.HasPrefix(s, p)`: whether `p` is a prefix of `s`, stated
over the underlying character lists. -/
def stringBeginsWith (s p : String) : Bool := p.data.isPrefixOf s.data

/-- Go string slicing `s[1:]`: defined only when the string has at least
one byte — `""[1:]` panics with a bounds error, modelled by `none`. -/
def stringSliceFrom1 (s : String) : Option String :=
  if s = "" then none else some (s.drop 1)

/-- The kubeconfig resolution part of `Configuration.Complete` (types
package, lines 74-97), on the path where no base configuration file is
loaded. On that path `result := c` copies the `*Configuration` pointer, so
`result` and `c` alias one struct: after the fill at lines 74-87 the
`c.Kubeconfig[1:]` slice at line 96 reads the already-filled value `k`
(which the line-90 guard ensures has prefix `~`, hence is non-empty, so the
slice cannot go out of bounds there). `envKubeconfig` is
`os.Getenv("KUBECONFIG")` (the empty string when unset, exactly the value
the code compares against), and `home` is the outcome of
`os.UserHomeDir()`, modelled as a fixed value of the environment. The
result would be `none` if the slice panicked; on this path that arm is
unreachable. -/
def completeKubeconfig (kubeconfig envKubeconfig : String)
    (home : Except String String) : Option (Except String String) :=
  let filled : Except String String :=
    if kubeconfig = "" then
      if envKubeconfig ≠ "" then Except.ok envKubeconfig
      else
        match home with
        | Except.error e =>
          Except.error ("failed to determine home directory: " ++ e)
        | Except.ok homeDir =>
          Except.ok (filepathJoin homeDir (filepathJoin ".kube" "config"))
    else Except.ok kubeconfig
  match filled with
  | Except.error e => some (Except.error e)
  | Except.ok k =>
    if stringBeginsWith k "~" then
      match home with
      | Except.error e =>
        some (Except.error ("failed to determine home directory: " ++ e))
      | Except.ok homeDir =>
        match stringSliceFrom1 k with
        | none => none
        | some tail => some (Except.ok (filepathJoin homeDir tail))
    else some (Except.ok k)

/-- Slicing a non-empty string from index 1 succeeds. -/
theorem stringSliceFrom1_of_ne (s : String) (h : s ≠ "") :
    stringSliceFrom1 s = some (s.drop 1) := by
  simp [stringSliceFrom1, h]

/-- A string with prefix `~` is non-empty. -/
theorem stringBeginsWith_tilde_ne_empty (s : String)
    (h : stringBeginsWith s "~" = true) : s ≠ "" := by
  intro hs
  subst hs
  exact absurd h (by decide)

/-- A join whose first element is non-empty is non-empty. -/
theorem filepathJoin_left_ne_empty (a b : String) (h : a ≠ "") :
    filepathJoin a b ≠ "" := by
  unfold filepathJoin
  by_cases hb : b = ""
  · simp [h, hb]
  · simp only [h, hb, if_false]
    intro hcontra
    have hlen : (a ++ "/" ++ b).length = 0 := by rw [hcontra]; rfl
    simp [String.length_append] at hlen
    exact absurd hlen.1.2 (by decide)

/-- A join whose second element is non-empty is non-empty. -/
theorem filepathJoin_right_ne_empty (a b : String) (h : b ≠ "") :
    filepathJoin a b ≠ "" := by
  unfold filepathJoin
  by_cases ha : a = ""
  · simp [ha, h]
  · simp only [ha, h, if_false]
    intro hcontra
    have hlen : (a ++ "/" ++ b).length = 0 := by rw [hcontra]; rfl
    simp [String.length_append] at hlen
    exact absurd hlen.1.2 (by decide)

/-- Claim C9: on the kubeconfig resolution path of `Complete`, a
home-directory failure with an empty kubeconfig and an unset `KUBECONFIG`
environment variable is surfaced immediately as the wrapped error, with no
retry; and whenever the resolution succeeds, the resolved kubeconfig path
is non-empty (the home directory being non-empty whenever `UserHomeDir`
succeeds, as Go guarantees). -/
theorem complete_kubeconfig_resolution :
    (∀ e : String, completeKubeconfig "" "" (Except.error e) =
        some (Except.error ("failed to determine home directory: " ++ e))) ∧
    (∀ (kubeconfig envKubeconfig : String) (home : Except String String) (k : String),
        (∀ h, home = Except.ok h → h ≠ "") →
        completeKubeconfig kubeconfig envKubeconfig home = some (Except.ok k) →
        k ≠ "") := by
  constructor
  · intro e
    rfl
  · intro kubeconfig envKubeconfig home k hhome hres
    unfold completeKubeconfig at hres
    by_cases hkc : kubeconfig = ""
    · by_cases henv : envKubeconfig = ""
      · match home with
        | Except.error e => simp [hkc, henv] at hres
        | Except.ok hd =>
          have hd_ne : hd ≠ "" := hhome hd rfl
          have hjoin_ne : filepathJoin hd (filepathJoin ".kube" "config") ≠ "" :=
            filepathJoin_left_ne_empty hd _ hd_ne
          simp only [hkc, henv, if_true, ite_not, if_pos rfl] at hres
          by_cases htilde :
              stringBeginsWith (filepathJoin hd (filepathJoin ".kube" "config")) "~" = true
          · rw [stringSliceFrom1_of_ne _ hjoin_ne] at hres
            simp [htilde] at hres
            subst hres
            exact filepathJoin_left_ne_empty hd _ hd_ne
          · simp [htilde] at hres
            subst hres
            exact hjoin_ne
      · match home with
        | Except.error e =>
          simp only [hkc, if_true, ite_not, if_neg henv] at hres
          by_cases htilde : stringBeginsWith envKubeconfig "~" = true
          · simp [htilde] at hres
          · simp [htilde] at hres
            subst hres
            exact henv
        | Except.ok hd =>
          have hd_ne : hd ≠ "" := hhome hd rfl
          simp only [hkc, if_true, ite_not, if_neg henv] at hres
          by_cases htilde : stringBeginsWith envKubeconfig "~" = true
          · rw [stringSliceFrom1_of_ne _ henv] at hres
            simp [htilde] at hres
            subst hres
            exact filepathJoin_left_ne_empty hd _ hd_ne
          · simp [htilde] at hres
            subst hres
            exact henv
    · match home with
      | Except.error e =>
        simp only [if_neg hkc] at hres
        by_cases htilde : stringBeginsWith kubeconfig "~" = true
        · simp [htilde] at hres
        · simp [htilde] at hres
          subst hres
          exact hkc
      | Except.ok hd =>
        have hd_ne : hd ≠ "" := hhome hd rfl
        simp only [if_neg hkc] at hres
        by_cases htilde : stringBeginsWith kubeconfig "~" = true
        · rw [stringSliceFrom1_of_ne _ hkc] at hres
          simp [htilde] at hres
          subst hres
          exact filepathJoin_left_ne_empty hd _ hd_ne
        · simp [htilde] at hres
          subst hres
          exact hkc

/-- Claim C9 witness: with everything empty and a failing home lookup the
error is surfaced, and a tilde-prefixed kubeconfig resolved against home
directory /home/u yields the non-empty path /home/u. -/
theorem complete_kubeconfig_resolution_witness :
    completeKubeconfig "" "" (Except.error "no home") =
      some (Except.error "failed to determine home directory: no home") ∧
    ("/home/u" : String) ≠ "" := by
  constructor
  · exact complete_kubeconfig_resolution.1 "no home"
  · refine complete_kubeconfig_resolution.2 "~" "" (Except.ok "/home/u") "/home/u"
      ?_ ?_
    · intro h hh
      cases hh
      decide
    · rfl

end Hydrophone
